import Mathlib

/-!
# Verification of `generate_pdf.py`

A shallow embedding, over `ℚ`, of the geometric core of the
figure-print tool: the composite builder (`figabooth_dimensions`,
`combine_order`), the pagination planner (`planGrid` and its pieces),
the slot-assignment loop (`placeAll`), the unit converter
(`parse_length`), the dimension resolver (`element_dimensions`) and the
order discovery (`discover_orders`).  Python floats are modelled as exact
rationals; Python strings are modelled as `List Char`; the builtin
`float()` string-to-number parser is an opaque library call and is
modelled as an abstract parameter `pyFloat : List Char → Option ℚ`.
-/

/-- `PX_TO_MM = 0.2645833333`, the fixed native-pixel to millimetre
conversion constant of the source. -/
def PX_TO_MM : ℚ := 0.2645833333

/-- reportlab's `mm` unit: one millimetre in points, `72 / 25.4`. -/
def mmUnit : ℚ := 72 / 25.4

/-- reportlab's A4 page width in points (`210 * mm`). -/
def A4width : ℚ := 210 * mmUnit

/-- reportlab's A4 page height in points (`297 * mm`). -/
def A4height : ℚ := 297 * mmUnit

/-- `v_spacing_pt = 78.383 * PX_TO_MM * mm` from `layout_figabooths`. -/
def v_spacing_pt : ℚ := 78.383 * PX_TO_MM * mmUnit

/-- `start_x_pt = 22.793 * PX_TO_MM * mm` from `layout_figabooths`. -/
def start_x_pt : ℚ := 22.793 * PX_TO_MM * mmUnit

/-- `top_margin_pt = 31.625 * PX_TO_MM * mm` from `layout_figabooths`. -/
def top_margin_pt : ℚ := 31.625 * PX_TO_MM * mmUnit

/-- `overlap_pt = 11.929 * PX_TO_MM * mm` from `layout_figabooths`. -/
def overlap_pt : ℚ := 11.929 * PX_TO_MM * mmUnit

/-- `figabooth_dimensions(head_root, body_root)`, parametrised by the
already-resolved fragment dimensions (the source resolves them through
`element_dimensions` first).  Returns the 6-tuple
`(head_w, head_h, body_w, body_h, total_width, total_height)` with
`total_width = max(head_width, body_width)` and
`total_height = head_height + body_height`. -/
def figabooth_dimensions (head_w head_h body_w body_h : ℚ) :
    ℚ × ℚ × ℚ × ℚ × ℚ × ℚ :=
  (head_w, head_h, body_w, body_h, max head_w body_w, head_h + body_h)

/-- The geometric content of the composite SVG produced by
`combine_order`: canvas size and the `translate(dx, dy)` offsets given to
the head group and the body group. -/
structure CompositeLayout where
  width : ℚ
  height : ℚ
  head_offset : ℚ × ℚ
  body_offset : ℚ × ℚ
deriving DecidableEq, Repr

/-- The geometry of `combine_order`: the composite canvas is
`total_width × total_height`; the head group gets
`transform = translate((total_width - head_width) / 2, 0)` and the body
group gets `transform = translate((total_width - body_width) / 2, head_height)`. -/
def combine_order (head_w head_h body_w body_h : ℚ) : CompositeLayout :=
  match figabooth_dimensions head_w head_h body_w body_h with
  | (hw, _hh, bw, _bh, tw, th) =>
    { width := tw
      height := th
      head_offset := ((tw - hw) / 2, 0)
      body_offset := ((tw - bw) / 2, head_h) }

/-- `step_x_pt = fig_width_pt - overlap_pt; if step_x_pt <= 0: step_x_pt =
fig_width_pt` (lines 170–172 of the source). -/
def step_x_of (fig_w overlap : ℚ) : ℚ :=
  if fig_w - overlap ≤ 0 then fig_w else fig_w - overlap

/-- Lines 174–178 of the source: `available_width_pt = page_width_pt -
start_x_pt; if available_width_pt <= fig_width_pt: max_cols = 1 else:
max_cols = max(1, floor((available_width_pt - fig_width_pt) / step_x_pt) + 1)`.
Note `ℚ` division is total; the source would raise `ZeroDivisionError`
when `step_x = 0`, which can only happen for a non-positive composite
width, so the theorems below assume `0 < fig_w`. -/
def max_cols_of (page_w start_x fig_w step_x : ℚ) : ℕ :=
  if page_w - start_x ≤ fig_w then 1
  else (max 1 (⌊(page_w - start_x - fig_w) / step_x⌋ + 1)).toNat

/-- The row-counting loop of lines 181–185: `max_rows = 0; current_y =
start_y; while current_y >= 0: max_rows += 1; current_y -= row_height_pt`.
Termination needs `0 < row_h`, which is carried as a hypothesis. -/
def countRowsPos (row_h : ℚ) (hr : 0 < row_h) (y : ℚ) : ℕ :=
  if h : y < 0 then 0
  else countRowsPos row_h hr (y - row_h) + 1
termination_by (⌊y / row_h⌋ + 1).toNat
decreasing_by
  have hne : row_h ≠ 0 := ne_of_gt hr
  have h1 : (y - row_h) / row_h = y / row_h - 1 := by
    rw [sub_div, div_self hne]
  have h2 : ⌊(y - row_h) / row_h⌋ = ⌊y / row_h⌋ - 1 := by
    rw [h1, Int.floor_sub_one]
  have h3 : (0 : ℤ) ≤ ⌊y / row_h⌋ :=
    Int.floor_nonneg.mpr (div_nonneg (not_lt.mp h) (le_of_lt hr))
  omega

/-- Total wrapper for the row-counting loop.  When `row_h ≤ 0` (which
needs a negative composite height) the source loop does not terminate;
that region is given the junk value `0` and every theorem about rows
assumes `0 < row_h`. -/
def countRows (row_h y : ℚ) : ℕ :=
  if h : 0 < row_h then countRowsPos row_h h y else 0

/-- The per-run page grid computed by `layout_figabooths`
(lines 155–189 of the source). -/
structure Grid where
  start_x : ℚ
  start_y : ℚ
  step_x : ℚ
  row_height : ℚ
  max_cols : ℕ
  max_rows : ℕ
  per_page : ℕ
deriving DecidableEq, Repr

/-- Lines 166–189 of `layout_figabooths`, parametrised by the page size,
the layout constants and the (first) composite's dimensions:
`start_y` clamped at 0, `step_x`, `max_cols`, the row-counting loop with
its `if max_rows == 0: max_rows = 1` fallback, and
`per_page = max_cols * max_rows`. -/
def planGrid (page_w page_h start_x top_margin overlap v_spacing fig_w fig_h : ℚ) :
    Grid :=
  let start_y0 := page_h - top_margin - fig_h
  let start_y := if start_y0 < 0 then 0 else start_y0
  let step_x := step_x_of fig_w overlap
  let max_cols := max_cols_of page_w start_x fig_w step_x
  let row_h := fig_h + v_spacing
  let rows0 := countRows row_h start_y
  let max_rows := if rows0 = 0 then 1 else rows0
  { start_x := start_x
    start_y := start_y
    step_x := step_x
    row_height := row_h
    max_cols := max_cols
    max_rows := max_rows
    per_page := max_cols * max_rows }

/-- One placement in the drawing loop: the page the composite lands on
(number of `showPage` calls made before it is drawn) and its row and
column within that page. -/
structure Slot where
  page : ℕ
  row : ℕ
  col : ℕ
deriving DecidableEq, Repr

/-- The drawing loop of lines 194–203, as a recursion over the remaining
composite count: at index `i` the slot is `i % per_page`, the row is
`slot / max_cols`, the column is `slot % max_cols`, and the page counter
is incremented exactly when `slot == 0 and index != 0` (the `showPage`
call). -/
def loopFrom (per_page cols : ℕ) : ℕ → ℕ → ℕ → List Slot
  | _, _, 0 => []
  | i, page, r + 1 =>
    let slot := i % per_page
    let page' := if slot = 0 ∧ i ≠ 0 then page + 1 else page
    { page := page', row := slot / cols, col := slot % cols } ::
      loopFrom per_page cols (i + 1) page' r

/-- The whole drawing loop for `n` composites, starting at index 0 on
page 0. -/
def placeAll (per_page cols n : ℕ) : List Slot :=
  loopFrom per_page cols 0 0 n

/-- The `Figabooth` dataclass (the SVG path is irrelevant to the
geometry and is dropped). -/
structure Figabooth where
  order_id : List Char
  width_px : ℚ
  height_px : ℚ
deriving DecidableEq, Repr

/-- `layout_figabooths(figs, pdf_path)`: on an empty list it returns
before the `canvas.Canvas` handle is ever created (`none`); otherwise it
converts the first composite's pixel dimensions to points, plans the
grid from the A4 page size and the fixed constants, and runs the
placement loop over all composites in input order. -/
def layout_figabooths (figs : List Figabooth) : Option (Grid × List Slot) :=
  match figs with
  | [] => none
  | f :: _ =>
    let fig_w := f.width_px * PX_TO_MM * mmUnit
    let fig_h := f.height_px * PX_TO_MM * mmUnit
    let g := planGrid A4width A4height start_x_pt top_margin_pt overlap_pt
      v_spacing_pt fig_w fig_h
    some (g, placeAll g.per_page g.max_cols figs.length)

/-- The two error kinds of the spec's taxonomy: the source raises
`ValueError` in both places, with distinct messages. -/
inductive SvgError where
  | MalformedLength
  | MissingDimensions
deriving DecidableEq, Repr

/-- Python's `str.strip()` on a string modelled as `List Char`. -/
def strip (s : List Char) : List Char :=
  ((s.dropWhile Char.isWhitespace).reverse.dropWhile Char.isWhitespace).reverse

/-- `parse_length(value)`, lines 36–51 of the source, parametrised by an
abstract model `pyFloat` of Python's builtin `float()` parser.
`None` raises; otherwise the value is stripped and the suffixes
`px, mm, cm, in` are tried in that order; a matching suffix is removed
(`value[:-2]`, every suffix has length 2) and the number is converted
(`px` unchanged, `mm` divided by `PX_TO_MM`, `cm` as `num * 10`, `in` as
`num * 25.4` millimetres); with no suffix the whole value must parse as
a bare number.  A `float()` failure anywhere is a `MalformedLength`. -/
def parse_length (pyFloat : List Char → Option ℚ) :
    Option (List Char) → Except SvgError ℚ
  | none => .error .MalformedLength
  | some v0 =>
    let v := strip v0
    if "px".data.isSuffixOf v then
      match pyFloat (v.take (v.length - 2)) with
      | some num => .ok num
      | none => .error .MalformedLength
    else if "mm".data.isSuffixOf v then
      match pyFloat (v.take (v.length - 2)) with
      | some num => .ok (num / PX_TO_MM)
      | none => .error .MalformedLength
    else if "cm".data.isSuffixOf v then
      match pyFloat (v.take (v.length - 2)) with
      | some num => .ok (num * 10 / PX_TO_MM)
      | none => .error .MalformedLength
    else if "in".data.isSuffixOf v then
      match pyFloat (v.take (v.length - 2)) with
      | some num => .ok (num * 25.4 / PX_TO_MM)
      | none => .error .MalformedLength
    else
      match pyFloat v with
      | some num => .ok num
      | none => .error .MalformedLength

/-- The portion of a stripped length value that `parse_length` hands to
`float()`: the value minus its recognised 2-character unit suffix, or
the whole value when no suffix matches. -/
def numericPart (v : List Char) : List Char :=
  if "px".data.isSuffixOf v || "mm".data.isSuffixOf v ||
      "cm".data.isSuffixOf v || "in".data.isSuffixOf v then
    v.take (v.length - 2)
  else v

/-- The conversion `parse_length` applies to the parsed number, selected
by the first matching unit suffix of the stripped value. -/
def unitConvert (v : List Char) (num : ℚ) : ℚ :=
  if "px".data.isSuffixOf v then num
  else if "mm".data.isSuffixOf v then num / PX_TO_MM
  else if "cm".data.isSuffixOf v then num * 10 / PX_TO_MM
  else if "in".data.isSuffixOf v then num * 25.4 / PX_TO_MM
  else num

/-- The attributes of an XML element that `element_dimensions`
inspects. -/
structure XmlElement where
  width : Option (List Char)
  height : Option (List Char)
  viewBox : Option (List Char)
deriving DecidableEq, Repr

/-- Python truthiness of an optional string attribute: `root.get(..)` is
truthy iff present and non-empty. -/
def attrTruthy : Option (List Char) → Bool
  | none => false
  | some s => !s.isEmpty

/-- Python's `str.split()` with no separator: split on whitespace runs,
discarding empty tokens. -/
def pySplit (s : List Char) : List (List Char) :=
  (s.splitOnP (fun c => c.isWhitespace)).filter (fun t => !t.isEmpty)

/-- The token list `view_box.replace(',', ' ').split()` of line 61. -/
def viewBoxParts (vb : List Char) : List (List Char) :=
  pySplit (vb.map (fun c => if c = ',' then ' ' else c))

/-- `element_dimensions(root)`, lines 54–64: explicit `width`/`height`
attributes first (both must be truthy; each is fed through
`parse_length`), then a truthy `viewBox` that splits into exactly 4
tokens (the 3rd and 4th are fed through `float()`); otherwise
`MissingDimensions`. -/
def element_dimensions (pyFloat : List Char → Option ℚ) (e : XmlElement) :
    Except SvgError (ℚ × ℚ) :=
  if attrTruthy e.width && attrTruthy e.height then do
    let wq ← parse_length pyFloat e.width
    let hq ← parse_length pyFloat e.height
    pure (wq, hq)
  else
    match e.viewBox with
    | some vb =>
      if vb.isEmpty then .error .MissingDimensions
      else
        let parts := viewBoxParts vb
        if parts.length = 4 then
          match pyFloat (parts.getD 2 []), pyFloat (parts.getD 3 []) with
          | some w, some h => .ok (w, h)
          | _, _ => .error .MalformedLength
        else .error .MissingDimensions
    | none => .error .MissingDimensions

/-- Whether the bounding-box form is present: a truthy `viewBox` whose
token list has exactly 4 entries. -/
def viewBox4 (e : XmlElement) : Bool :=
  match e.viewBox with
  | some vb => !vb.isEmpty && (viewBoxParts vb).length == 4
  | none => false

/-- `discover_orders(order_dir)`, lines 133–143, over the list of file
names in the directory: the files matching `*_head.svg` are examined;
for each, the order id is the stem minus the trailing `_head` (i.e. the
name minus its trailing 9 characters `_head.svg`) and the expected body
file is `<id>_body.svg`.  Heads whose body file is absent produce a
warning (second component) and no pair; the pairs
`(head, body, order_id)` are sorted by order id, lexicographically by
code point as Python string comparison does. -/
def discover_orders (files : List (List Char)) :
    List (List Char × List Char × List Char) × List (List Char) :=
  let heads := files.filter (fun f => "_head.svg".data.isSuffixOf f)
  let pairs := heads.filterMap (fun f =>
    let id := f.take (f.length - 9)
    if (id ++ "_body.svg".data) ∈ files then some (f, id ++ "_body.svg".data, id)
    else none)
  let warnings := heads.filterMap (fun f =>
    let id := f.take (f.length - 9)
    if (id ++ "_body.svg".data) ∈ files then none else some id)
  (List.insertionSort (fun p q => p.2.2 ≤ q.2.2) pairs, warnings)

/-- A tiny concrete stand-in for `float()` used only to witness the
abstract-`pyFloat` theorems on concrete inputs. -/
def pfW : List Char → Option ℚ := fun l =>
  if l = "12".data then some 12
  else if l = "3".data then some 3
  else if l = "4".data then some 4
  else none

/-- C1: for every pair of fragments with resolved dimensions, the
composite built from them has width exactly `max(head.width, body.width)`
and height exactly `head.height + body.height`. -/
theorem composite_dims_spec (hw hh bw bh : ℚ) :
    (combine_order hw hh bw bh).width = max hw bw ∧
    (combine_order hw hh bw bh).height = hh + bh :=
  ⟨rfl, rfl⟩

/-- C2: the builder places the head at horizontal offset
`(total width - head width) / 2` with vertical offset `0` and the body at
horizontal offset `(total width - body width) / 2` with vertical offset
`head height`; for head `100×50` and body `80×60` the composite is
`100×110` with head offset `(0, 0)` and body offset `(10, 50)`. -/
theorem composite_offsets_spec (hw hh bw bh : ℚ) :
    (combine_order hw hh bw bh).head_offset =
      (((combine_order hw hh bw bh).width - hw) / 2, 0) ∧
    (combine_order hw hh bw bh).body_offset =
      (((combine_order hw hh bw bh).width - bw) / 2, hh) ∧
    combine_order 100 50 80 60 =
      { width := 100, height := 110, head_offset := (0, 0), body_offset := (10, 50) } := by
  refine ⟨rfl, rfl, ?_⟩
  have hmax : max (100 : ℚ) 80 = 100 := by norm_num
  simp only [combine_order, figabooth_dimensions, hmax]
  norm_num

/-- C9: the layout stage on an empty composite list produces no document
and never opens the output document handle (the source returns before
`canvas.Canvas` is constructed); the embedding is a total function, so
the run completes normally. -/
theorem layout_empty_no_pdf : layout_figabooths [] = none := rfl

/-- The column count is never zero: both branches of `max_cols_of`
produce at least 1. -/
lemma one_le_max_cols (page_w start_x fig_w step_x : ℚ) :
    1 ≤ max_cols_of page_w start_x fig_w step_x := by
  unfold max_cols_of
  split
  · exact le_refl 1
  · have h1 : (1 : ℤ) ≤ max 1 (⌊(page_w - start_x - fig_w) / step_x⌋ + 1) :=
      le_max_left _ _
    omega

/-- C3: `step_x = composite_width - overlap` with fallback to
`composite_width` when that difference is `≤ 0`; `columns = 1` when
`page_width - start_x ≤ composite_width`, else
`columns = max(1, floor((available_width - composite_width) / step_x) + 1)`;
a composite wider than the usable width yields `columns = 1`, never zero
and never an error, and these are exactly the `step_x` and `max_cols`
fields of the planned grid. -/
theorem planner_columns_spec (page_w start_x overlap fig_w : ℚ) (hw : 0 < fig_w) :
    (fig_w - overlap ≤ 0 → step_x_of fig_w overlap = fig_w) ∧
    (0 < fig_w - overlap → step_x_of fig_w overlap = fig_w - overlap) ∧
    0 < step_x_of fig_w overlap ∧
    (page_w - start_x ≤ fig_w →
      max_cols_of page_w start_x fig_w (step_x_of fig_w overlap) = 1) ∧
    (fig_w < page_w - start_x →
      (max_cols_of page_w start_x fig_w (step_x_of fig_w overlap) : ℤ) =
        max 1 (⌊(page_w - start_x - fig_w) / step_x_of fig_w overlap⌋ + 1)) ∧
    1 ≤ max_cols_of page_w start_x fig_w (step_x_of fig_w overlap) ∧
    ∀ page_h top_margin v_spacing fig_h : ℚ,
      (planGrid page_w page_h start_x top_margin overlap v_spacing fig_w fig_h).step_x =
        step_x_of fig_w overlap ∧
      (planGrid page_w page_h start_x top_margin overlap v_spacing fig_w fig_h).max_cols =
        max_cols_of page_w start_x fig_w (step_x_of fig_w overlap) := by
  refine ⟨?_, ?_, ?_, ?_, ?_, one_le_max_cols _ _ _ _, fun _ _ _ _ => ⟨rfl, rfl⟩⟩
  · intro h
    simp [step_x_of, h]
  · intro h
    simp [step_x_of, not_le.mpr h]
  · unfold step_x_of
    split
    · exact hw
    · next h => exact lt_of_not_le h
  · intro h
    simp [max_cols_of, h]
  · intro h
    rw [max_cols_of, if_neg (not_le.mpr h)]
    have h1 : (1 : ℤ) ≤ max 1 (⌊(page_w - start_x - fig_w) / step_x_of fig_w overlap⌋ + 1) :=
      le_max_left _ _
    omega

/-- One unfolding of the loop body gives at least one iteration whenever
the starting value is non-negative. -/
lemma one_le_countRowsPos (row_h : ℚ) (hr : 0 < row_h) (y : ℚ) (hy : 0 ≤ y) :
    1 ≤ countRowsPos row_h hr y := by
  rw [countRowsPos]
  rw [dif_neg (not_lt.mpr hy)]
  omega

/-- The row-counting loop computes `⌊y / row_h⌋ + 1` on non-negative
starting values. -/
lemma countRowsPos_eq_floor (row_h : ℚ) (hr : 0 < row_h) :
    ∀ y : ℚ, 0 ≤ y → countRowsPos row_h hr y = (⌊y / row_h⌋).toNat + 1 := by
  suffices H : ∀ n : ℕ, ∀ y : ℚ, 0 ≤ y → (⌊y / row_h⌋).toNat = n →
      countRowsPos row_h hr y = n + 1 by
    intro y hy
    exact H _ y hy rfl
  intro n
  induction n using Nat.strong_induction_on with
  | _ n ih =>
    intro y hy hn
    rw [countRowsPos, dif_neg (not_lt.mpr hy)]
    by_cases hy2 : y - row_h < 0
    · rw [countRowsPos, dif_pos hy2]
      have h0 : ⌊y / row_h⌋ = 0 := by
        rw [Int.floor_eq_zero_iff, Set.mem_Ico]
        refine ⟨div_nonneg hy (le_of_lt hr), ?_⟩
        rw [div_lt_one hr]
        linarith
      omega
    · have hy2' : 0 ≤ y - row_h := not_lt.mp hy2
      have hfl : ⌊(y - row_h) / row_h⌋ = ⌊y / row_h⌋ - 1 := by
        rw [sub_div, div_self (ne_of_gt hr), Int.floor_sub_one]
      have hpos : 1 ≤ ⌊y / row_h⌋ := by
        refine Int.le_floor.mpr ?_
        push_cast
        rw [le_div_iff₀ hr]
        linarith
      have hfl0 : 0 ≤ ⌊(y - row_h) / row_h⌋ :=
        Int.floor_nonneg.mpr (div_nonneg hy2' (le_of_lt hr))
      have hless : (⌊(y - row_h) / row_h⌋).toNat < n := by omega
      rw [ih _ hless (y - row_h) hy2' rfl]
      omega

/-- The total wrapper agrees with the loop on the terminating region. -/
lemma countRows_eq_floor (row_h y : ℚ) (hr : 0 < row_h) (hy : 0 ≤ y) :
    countRows row_h y = (⌊y / row_h⌋).toNat + 1 := by
  unfold countRows
  rw [dif_pos hr]
  exact countRowsPos_eq_floor row_h hr y hy

/-- C10: for every `start_y ≥ 0` and row height `row_h > 0` the
decrementing row-count loop terminates (it is a total function of the
embedding) and returns exactly `⌊start_y / row_h⌋ + 1`, so it is never
zero and the `if max_rows == 0: max_rows = 1` fallback leaves the count
unchanged. -/
theorem rows_loop_floor (row_h y : ℚ) (hr : 0 < row_h) (hy : 0 ≤ y) :
    countRows row_h y = (⌊y / row_h⌋).toNat + 1 ∧
    (if countRows row_h y = 0 then 1 else countRows row_h y) = countRows row_h y := by
  have h1 := countRows_eq_floor row_h y hr hy
  refine ⟨h1, ?_⟩
  rw [h1]
  simp

/-- Witness for `rows_loop_floor` at `row_h = 3`, `start_y = 7`. -/
theorem rows_loop_floor_witness :
    (0 : ℚ) < 3 ∧ (0 : ℚ) ≤ 7 ∧
      (countRows 3 7 = (⌊(7 : ℚ) / 3⌋).toNat + 1 ∧
        (if countRows 3 7 = 0 then 1 else countRows 3 7) = countRows 3 7) :=
  ⟨by norm_num, by norm_num, rows_loop_floor 3 7 (by norm_num) (by norm_num)⟩

/-- The loop count is at least one whenever the row height is positive
and the starting value non-negative. -/
lemma one_le_countRows (row_h y : ℚ) (hr : 0 < row_h) (hy : 0 ≤ y) :
    1 ≤ countRows row_h y := by
  unfold countRows
  rw [dif_pos hr]
  exact one_le_countRowsPos row_h hr y hy

/-- C4: the planner clamps `start_y = page_height - top_margin -
composite_height` at 0, counts rows with the decrementing loop (minimum
1 row via the fallback), and sets `per_page = columns × rows`, which is
always at least 1. -/
theorem planner_rows_capacity (page_w page_h start_x top_margin overlap v_spacing fig_w fig_h : ℚ)
    (hrow : 0 < fig_h + v_spacing) :
    (planGrid page_w page_h start_x top_margin overlap v_spacing fig_w fig_h).start_y =
      (if page_h - top_margin - fig_h < 0 then 0 else page_h - top_margin - fig_h) ∧
    0 ≤ (planGrid page_w page_h start_x top_margin overlap v_spacing fig_w fig_h).start_y ∧
    (planGrid page_w page_h start_x top_margin overlap v_spacing fig_w fig_h).max_rows =
      countRows (fig_h + v_spacing)
        (planGrid page_w page_h start_x top_margin overlap v_spacing fig_w fig_h).start_y ∧
    1 ≤ (planGrid page_w page_h start_x top_margin overlap v_spacing fig_w fig_h).max_rows ∧
    (planGrid page_w page_h start_x top_margin overlap v_spacing fig_w fig_h).per_page =
      (planGrid page_w page_h start_x top_margin overlap v_spacing fig_w fig_h).max_cols *
        (planGrid page_w page_h start_x top_margin overlap v_spacing fig_w fig_h).max_rows ∧
    1 ≤ (planGrid page_w page_h start_x top_margin overlap v_spacing fig_w fig_h).per_page := by
  have hsy : 0 ≤ (planGrid page_w page_h start_x top_margin overlap v_spacing fig_w fig_h).start_y := by
    show 0 ≤ (if page_h - top_margin - fig_h < 0 then (0 : ℚ) else page_h - top_margin - fig_h)
    split
    · exact le_refl 0
    · next h => exact not_lt.mp h
  have hcr : 1 ≤ countRows (fig_h + v_spacing)
      (planGrid page_w page_h start_x top_margin overlap v_spacing fig_w fig_h).start_y :=
    one_le_countRows _ _ hrow hsy
  have hrows : (planGrid page_w page_h start_x top_margin overlap v_spacing fig_w fig_h).max_rows =
      countRows (fig_h + v_spacing)
        (planGrid page_w page_h start_x top_margin overlap v_spacing fig_w fig_h).start_y := by
    show (if countRows (fig_h + v_spacing)
        (if page_h - top_margin - fig_h < 0 then (0 : ℚ) else page_h - top_margin - fig_h) = 0
      then 1
      else countRows (fig_h + v_spacing)
        (if page_h - top_margin - fig_h < 0 then (0 : ℚ) else page_h - top_margin - fig_h)) = _
    have hcr' : 1 ≤ countRows (fig_h + v_spacing)
        (if page_h - top_margin - fig_h < 0 then (0 : ℚ) else page_h - top_margin - fig_h) := hcr
    rw [if_neg (by omega)]
    rfl
  have hcols : 1 ≤ (planGrid page_w page_h start_x top_margin overlap v_spacing fig_w fig_h).max_cols :=
    one_le_max_cols _ _ _ _
  refine ⟨rfl, hsy, hrows, ?_, rfl, ?_⟩
  · rw [hrows]
    exact hcr
  · show 1 ≤ (planGrid page_w page_h start_x top_margin overlap v_spacing fig_w fig_h).max_cols *
      (planGrid page_w page_h start_x top_margin overlap v_spacing fig_w fig_h).max_rows
    have h2 : 1 ≤ (planGrid page_w page_h start_x top_margin overlap v_spacing fig_w fig_h).max_rows := by
      rw [hrows]; exact hcr
    exact Nat.one_le_iff_ne_zero.mpr (Nat.mul_ne_zero (by omega) (by omega))

/-- Witness for `planner_columns_spec`: page width 400, start offset 20
(usable width 380), composite width 100, overlap 10 give `step_x = 90`
and 4 columns. -/
theorem planner_columns_spec_witness :
    (0 : ℚ) < 100 ∧ step_x_of 100 10 = 90 ∧
      max_cols_of 400 20 100 (step_x_of 100 10) = 4 := by
  have hs : step_x_of (100 : ℚ) 10 = 90 := by norm_num [step_x_of]
  refine ⟨by norm_num, hs, ?_⟩
  rw [hs]
  have h := (planner_columns_spec 400 20 10 100 (by norm_num)).2.2.2.2.1 (by norm_num)
  rw [hs] at h
  norm_num at h
  omega

/-- Witness for `planner_rows_capacity` at a concrete grid. -/
theorem planner_rows_capacity_witness :
    (0 : ℚ) < 110 + 5 ∧ 1 ≤ (planGrid 400 800 20 30 10 5 100 110).per_page :=
  ⟨by norm_num, (planner_rows_capacity 400 800 20 30 10 5 100 110 (by norm_num)).2.2.2.2.2⟩

/-- The drawing loop visits every composite once. -/
lemma loopFrom_length (pp c : ℕ) : ∀ r i p : ℕ, (loopFrom pp c i p r).length = r := by
  intro r
  induction r with
  | zero => intro i p; rfl
  | succ r ih => intro i p; simp [loopFrom, ih]

/-- The page counter update of the drawing loop: incrementing at a wrap
of the per-page slot turns the page of index `i - 1` into the page of
index `i`. -/
lemma page_step (pp i : ℕ) :
    (if i % pp = 0 ∧ i ≠ 0 then (i - 1) / pp + 1 else (i - 1) / pp) = i / pp := by
  cases i with
  | zero => simp
  | succ k =>
    rw [Nat.succ_div, Nat.add_sub_cancel]
    by_cases h : (k + 1) % pp = 0
    · rw [if_pos ⟨h, Nat.succ_ne_zero k⟩,
        if_pos (Nat.dvd_iff_mod_eq_zero.mpr h)]
    · rw [if_neg (by tauto),
        if_neg (fun hd => h (Nat.dvd_iff_mod_eq_zero.mp hd)),
        Nat.add_zero]

/-- Entering the loop at index `i` with the page counter holding the
page of index `i - 1`, the `j`-th emitted placement is that of input
index `i + j`. -/
lemma loopFrom_getElem (pp c : ℕ) :
    ∀ r i j : ℕ, j < r →
      (loopFrom pp c i ((i - 1) / pp) r)[j]? =
        some ⟨(i + j) / pp, (i + j) % pp / c, (i + j) % pp % c⟩ := by
  intro r
  induction r with
  | zero => intro i j hj; omega
  | succ r ih =>
    intro i j hj
    simp only [loopFrom]
    rw [page_step]
    cases j with
    | zero => simp
    | succ j' =>
      have hstep : (i + 1 - 1) / pp = i / pp := by simp
      rw [List.getElem?_cons_succ]
      have := ih (i + 1) j' (by omega)
      rw [hstep] at this
      rw [this]
      have harith : i + 1 + j' = i + (j' + 1) := by omega
      rw [harith]

/-- C5: with per-page capacity ≥ 1, composite index `i` is placed on
page `i / capacity` in row `(i % capacity) / columns` and column
`(i % capacity) % columns`; placements are emitted in input order (one
per index), and the page advances by one exactly when the per-page slot
index wraps to zero — never before the very first composite. -/
theorem slot_assignment (per_page cols n i : ℕ) (_hpp : 1 ≤ per_page) (hi : i < n) :
    (placeAll per_page cols n).length = n ∧
    (placeAll per_page cols n)[i]? =
      some ⟨i / per_page, i % per_page / cols, i % per_page % cols⟩ ∧
    (i + 1 < n →
      ((placeAll per_page cols n)[i + 1]?).map Slot.page =
        some (i / per_page + if (i + 1) % per_page = 0 then 1 else 0)) := by
  have hz : ((0 : ℕ) - 1) / per_page = 0 := by simp
  refine ⟨loopFrom_length per_page cols n 0 0, ?_, ?_⟩
  · have h := loopFrom_getElem per_page cols n 0 i hi
    rw [hz] at h
    simpa [placeAll] using h
  · intro hj
    have h := loopFrom_getElem per_page cols n 0 (i + 1) hj
    rw [hz] at h
    simp only [Nat.zero_add] at h
    rw [placeAll, h]
    simp only [Option.map_some']
    rw [Nat.succ_div]
    by_cases hd : (i + 1) % per_page = 0
    · rw [if_pos (Nat.dvd_iff_mod_eq_zero.mpr hd), if_pos hd]
    · rw [if_neg (fun hdvd => hd (Nat.dvd_iff_mod_eq_zero.mp hdvd)), if_neg hd]

/-- Witness for `slot_assignment`: capacity 4, 2 columns, 9 composites,
index 3 sits on page 0, row 1, column 1 and index 4 opens page 1. -/
theorem slot_assignment_witness :
    1 ≤ 4 ∧ 3 < 9 ∧
      ((placeAll 4 2 9).length = 9 ∧
        (placeAll 4 2 9)[3]? = some ⟨3 / 4, 3 % 4 / 2, 3 % 4 % 2⟩ ∧
        (3 + 1 < 9 →
          ((placeAll 4 2 9)[3 + 1]?).map Slot.page =
            some (3 / 4 + if (3 + 1) % 4 = 0 then 1 else 0))) :=
  ⟨by decide, by decide, slot_assignment 4 2 9 3 (by decide) (by decide)⟩

/-- C6: a head file whose matching body file is absent produces a
warning and no pair (hence zero composites for that id) while the run
continues (the embedding is total); the discovered pairs are sorted in
lexicographic order of their ids; concretely, a directory holding only
`order1_head.svg` yields no pairs and one warning for `order1`. -/
theorem discovery_skip_sorted (files : List (List Char)) (id : List Char)
    (hhead : (id ++ "_head.svg".data) ∈ files)
    (hbody : (id ++ "_body.svg".data) ∉ files) :
    id ∈ (discover_orders files).2 ∧
    (∀ p ∈ (discover_orders files).1, p.2.2 ≠ id) ∧
    List.Sorted (fun p q => p.2.2 ≤ q.2.2) (discover_orders files).1 ∧
    discover_orders ["order1_head.svg".data] = ([], ["order1".data]) := by
  have hlen : ("_head.svg".data : List Char).length = 9 := by decide
  have hid : (id ++ "_head.svg".data).take ((id ++ "_head.svg".data).length - 9) = id := by
    rw [List.length_append, hlen, Nat.add_sub_cancel, List.take_left]
  have hmem : (id ++ "_head.svg".data) ∈
      files.filter (fun f => "_head.svg".data.isSuffixOf f) := by
    rw [List.mem_filter]
    refine ⟨hhead, ?_⟩
    simp only [List.isSuffixOf_iff_suffix, decide_eq_true_eq]
    exact List.suffix_append _ _
  refine ⟨?_, ?_, ?_, ?_⟩
  · show id ∈ (files.filter fun f => "_head.svg".data.isSuffixOf f).filterMap (fun f =>
      if (f.take (f.length - 9) ++ "_body.svg".data) ∈ files then none
      else some (f.take (f.length - 9)))
    rw [List.mem_filterMap]
    refine ⟨id ++ "_head.svg".data, hmem, ?_⟩
    rw [hid, if_neg hbody]
  · intro p hp
    have hp' : p ∈ (files.filter fun f => "_head.svg".data.isSuffixOf f).filterMap (fun f =>
        if (f.take (f.length - 9) ++ "_body.svg".data) ∈ files
        then some (f, f.take (f.length - 9) ++ "_body.svg".data, f.take (f.length - 9))
        else none) := (List.mem_insertionSort _).mp hp
    rw [List.mem_filterMap] at hp'
    obtain ⟨f, _hf, heq⟩ := hp'
    by_cases hc : (f.take (f.length - 9) ++ "_body.svg".data) ∈ files
    · rw [if_pos hc] at heq
      have hpp := Option.some.inj heq
      intro hbad
      apply hbody
      rw [← hbad, ← hpp]
      exact hc
    · rw [if_neg hc] at heq
      exact absurd heq (by simp)
  · have htot : IsTotal (List Char × List Char × List Char) (fun p q => p.2.2 ≤ q.2.2) :=
      ⟨fun a b => le_total a.2.2 b.2.2⟩
    have htrans : IsTrans (List Char × List Char × List Char) (fun p q => p.2.2 ≤ q.2.2) :=
      ⟨fun a b c h1 h2 => le_trans h1 h2⟩
    exact @List.sorted_insertionSort _ _ _ htot htrans _
  · rfl

/-- Witness for `discovery_skip_sorted`: the scenario directory holding
only `order1_head.svg`. -/
theorem discovery_skip_sorted_witness :
    ("order1".data ++ "_head.svg".data) ∈ (["order1_head.svg".data] : List (List Char)) ∧
    ("order1".data ++ "_body.svg".data) ∉ (["order1_head.svg".data] : List (List Char)) ∧
    "order1".data ∈ (discover_orders ["order1_head.svg".data]).2 :=
  ⟨by decide, by decide,
    (discovery_skip_sorted ["order1_head.svg".data] "order1".data
      (by decide) (by decide)).1⟩

/-- `parse_length` on a present value: the number handed to `float()` is
the `numericPart` of the stripped value and the result is the
`unitConvert` conversion of the parsed number; a parse failure is a
`MalformedLength`. -/
lemma parse_length_eval (pyFloat : List Char → Option ℚ) (s : List Char) :
    parse_length pyFloat (some s) =
      match pyFloat (numericPart (strip s)) with
      | some num => .ok (unitConvert (strip s) num)
      | none => .error .MalformedLength := by
  simp only [parse_length, numericPart, unitConvert]
  by_cases h1 : "px".data.isSuffixOf (strip s) <;>
    by_cases h2 : "mm".data.isSuffixOf (strip s) <;>
      by_cases h3 : "cm".data.isSuffixOf (strip s) <;>
        by_cases h4 : "in".data.isSuffixOf (strip s) <;>
          simp [h1, h2, h3, h4]

/-- C7: the length parser converts a number tagged with a unit from the
closed set `{px, mm, cm, in}` into native pixel units using the single
constant `PX_TO_MM` (`px` unchanged, `mm` divided by the constant, `cm`
as 10 mm, `in` as 25.4 mm, a bare number unchanged), and yields a
`MalformedLength` error exactly when the input is absent or when the
numeric part fails to parse. -/
theorem parse_length_units (pyFloat : List Char → Option ℚ) (s : List Char) (q : ℚ) :
    parse_length pyFloat none = .error .MalformedLength ∧
    (pyFloat (numericPart (strip s)) = none →
      parse_length pyFloat (some s) = .error .MalformedLength) ∧
    (pyFloat (numericPart (strip s)) = some q →
      parse_length pyFloat (some s) = .ok (unitConvert (strip s) q)) ∧
    (∀ e, parse_length pyFloat (some s) = .error e →
      e = .MalformedLength ∧ pyFloat (numericPart (strip s)) = none) := by
  have he := parse_length_eval pyFloat s
  refine ⟨rfl, ?_, ?_, ?_⟩
  · intro h
    rw [he, h]
  · intro h
    rw [he, h]
  · intro e hE
    rw [he] at hE
    cases hpf : pyFloat (numericPart (strip s)) with
    | none =>
      rw [hpf] at hE
      simp only [] at hE
      exact ⟨(Except.error.inj hE).symm, rfl⟩
    | some num =>
      rw [hpf] at hE
      exact absurd hE (by simp)

/-- Witness for `parse_length_units`: `"12mm"` parses to
`12 / PX_TO_MM`. -/
theorem parse_length_units_witness :
    pfW (numericPart (strip "12mm".data)) = some 12 ∧
      parse_length pfW (some "12mm".data) = .ok (unitConvert (strip "12mm".data) 12) :=
  ⟨by decide, (parse_length_units pfW "12mm".data 12).2.2.1 (by decide)⟩

/-- The length parser can only fail with `MalformedLength`, never with
`MissingDimensions`. -/
lemma parse_length_ne_missing (pyFloat : List Char → Option ℚ) (v : Option (List Char)) :
    parse_length pyFloat v ≠ .error .MissingDimensions := by
  cases v with
  | none => simp [parse_length]
  | some s =>
    rw [parse_length_eval]
    cases pyFloat (numericPart (strip s)) <;> simp

/-- An attribute holding a non-empty string is truthy. -/
lemma attrTruthy_of_ne_nil (w : List Char) (hw : w ≠ []) : attrTruthy (some w) = true := by
  cases w with
  | nil => exact absurd rfl hw
  | cons a t => rfl

/-- A `viewBox` splitting into four tokens is not the empty string. -/
lemma ne_nil_of_viewBoxParts_four (vb : List Char) (hp : (viewBoxParts vb).length = 4) :
    vb ≠ [] := by
  intro h
  subst h
  simp [viewBoxParts, pySplit] at hp

/-- C8: the dimension-pair reader first tries explicit truthy
`width`/`height` attributes (returning their parsed lengths, in that
priority, regardless of any `viewBox`), then a 4-token `viewBox` taking
the 3rd and 4th tokens as width and height, and produces a
`MissingDimensions` error exactly when neither form is present. -/
theorem element_dimensions_resolver (pyFloat : List Char → Option ℚ) (e : XmlElement)
    (w h vb : List Char) (wq hq : ℚ) :
    (e.width = some w → e.height = some h → w ≠ [] → h ≠ [] →
      element_dimensions pyFloat e = do
        let a ← parse_length pyFloat (some w)
        let b ← parse_length pyFloat (some h)
        pure (a, b)) ∧
    ((attrTruthy e.width && attrTruthy e.height) = false →
      e.viewBox = some vb →
      (viewBoxParts vb).length = 4 →
      pyFloat ((viewBoxParts vb).getD 2 []) = some wq →
      pyFloat ((viewBoxParts vb).getD 3 []) = some hq →
      element_dimensions pyFloat e = .ok (wq, hq)) ∧
    (element_dimensions pyFloat e = .error .MissingDimensions ↔
      (attrTruthy e.width && attrTruthy e.height) = false ∧ viewBox4 e = false) := by
  obtain ⟨ow, oh, ovb⟩ := e
  refine ⟨?_, ?_, ?_⟩
  · intro hw hh hwne hhne
    replace hw : ow = some w := hw
    replace hh : oh = some h := hh
    subst hw
    subst hh
    unfold element_dimensions
    dsimp only
    rw [if_pos (by rw [attrTruthy_of_ne_nil w hwne, attrTruthy_of_ne_nil h hhne]; rfl)]
  · intro hwh hvb hp h2 h3
    replace hvb : ovb = some vb := hvb
    subst hvb
    replace hwh : (attrTruthy ow && attrTruthy oh) = false := hwh
    have hne := ne_nil_of_viewBoxParts_four vb hp
    unfold element_dimensions
    dsimp only
    rw [if_neg (by rw [hwh]; exact Bool.false_ne_true)]
    rw [if_neg (by simp [List.isEmpty_iff, hne])]
    rw [if_pos hp, h2, h3]
  · by_cases hwh : (attrTruthy ow && attrTruthy oh) = true
    · unfold element_dimensions
      dsimp only
      rw [if_pos hwh]
      constructor
      · intro hE
        exfalso
        cases hw1 : parse_length pyFloat ow with
        | error e1 =>
          rw [hw1] at hE
          have hE' : (Except.error e1 : Except SvgError (ℚ × ℚ)) =
              Except.error SvgError.MissingDimensions := hE
          have he1 := Except.error.inj hE'
          exact parse_length_ne_missing pyFloat ow (by rw [hw1, he1])
        | ok a =>
          cases hw2 : parse_length pyFloat oh with
          | error e2 =>
            rw [hw1, hw2] at hE
            have hE' : (Except.error e2 : Except SvgError (ℚ × ℚ)) =
                Except.error SvgError.MissingDimensions := hE
            have he2 := Except.error.inj hE'
            exact parse_length_ne_missing pyFloat oh (by rw [hw2, he2])
          | ok b =>
            rw [hw1, hw2] at hE
            have hE' : (Except.ok (a, b) : Except SvgError (ℚ × ℚ)) =
                Except.error SvgError.MissingDimensions := hE
            exact Except.noConfusion hE'
      · rintro ⟨hfalse, -⟩
        rw [hwh] at hfalse
        exact absurd hfalse (by simp)
    · have hwh' : (attrTruthy ow && attrTruthy oh) = false :=
        eq_false_of_ne_true hwh
      unfold element_dimensions
      dsimp only
      rw [if_neg hwh]
      cases ovb with
      | none => simp [viewBox4, hwh']
      | some vb2 =>
        dsimp only
        by_cases hemp : vb2.isEmpty = true
        · rw [if_pos hemp]
          simp [viewBox4, hemp, hwh']
        · rw [if_neg hemp]
          by_cases hlen : (viewBoxParts vb2).length = 4
          · rw [if_pos hlen]
            constructor
            · intro hE
              split at hE
              · exact Except.noConfusion hE
              · exact SvgError.noConfusion (Except.error.inj hE)
            · rintro ⟨-, hv4⟩
              simp [viewBox4, hemp, hlen] at hv4
          · rw [if_neg hlen]
            simp [viewBox4, hwh', hemp, hlen]

/-- Witness for `element_dimensions_resolver`: an element with no
`width`/`height` attributes and `viewBox = "0 0 3 4"` resolves to
`(3, 4)` through the bounding-box tokens. -/
theorem element_dimensions_resolver_witness :
    (attrTruthy (none : Option (List Char)) && attrTruthy (none : Option (List Char))) = false ∧
    (viewBoxParts "0 0 3 4".data).length = 4 ∧
    pfW ((viewBoxParts "0 0 3 4".data).getD 2 []) = some 3 ∧
    pfW ((viewBoxParts "0 0 3 4".data).getD 3 []) = some 4 ∧
    element_dimensions pfW ⟨none, none, some "0 0 3 4".data⟩ = .ok (3, 4) := by
  refine ⟨by decide, by decide, by decide, by decide, ?_⟩
  exact (element_dimensions_resolver pfW ⟨none, none, some "0 0 3 4".data⟩
    [] [] "0 0 3 4".data 3 4).2.1 (by decide) rfl (by decide) (by decide) (by decide)
